import Mathlib

/-!
Shallow embedding of the site-status dashboard's data pipeline: the
`getSiteData` cache gate, the `dataProcessing` aggregator (uptime-range
splitting, daily buckets, log fold, priority sort), the `changeSite`
presenter rollup, and the proxy endpoint that overrides the client's
`api_key`.  Machine numbers are modelled as `ℤ`/`ℚ`, thrown exceptions as
`Except`, and the ambient dayjs date formatting as an explicit
`dayKey : ℤ → String` parameter.
-/

namespace SiteStatus

/-- ASCII whitespace test used by `trimString`; it models the characters
`String.prototype.trim` strips in the source's `friendly_name.trim()`
calls (the unicode extras never occur in site names). -/
def isSpaceChar (c : Char) : Bool :=
  c == ' ' || c == '\t' || c == '\n' || c == '\r'

/-- Model of JavaScript `String.prototype.trim`: drop leading and trailing
whitespace. -/
def trimString (s : String) : String :=
  ⟨((s.data.dropWhile isSpaceChar).reverse.dropWhile isSpaceChar).reverse⟩

/-- Model of JavaScript `String.prototype.split` with a one-character
separator, working on the character list of the string.  As in JavaScript,
the result is never empty: `"".split(sep)` is `[""]`. -/
def splitOnChar (sep : Char) : List Char → List (List Char)
  | [] => [[]]
  | c :: cs =>
    match splitOnChar sep cs with
    | [] => [[]]
    | g :: gs => if c == sep then [] :: g :: gs else (c :: g) :: gs

/-- String-valued wrapper around `splitOnChar`. -/
def splitString (sep : Char) (s : String) : List String :=
  (splitOnChar sep s.data).map (fun cs => ⟨cs⟩)

/-- Numeric value of a digit string; `none` when empty or containing a
non-digit.  Helper for the spec-modelled `formatNumber`. -/
def digitsVal (cs : List Char) : Option ℕ :=
  if cs.isEmpty then none
  else
    cs.foldl
      (fun acc c =>
        match acc with
        | none => none
        | some n => if c.isDigit then some (n * 10 + (c.toNat - 48)) else none)
      (some 0)

/-- Modelled from the spec: `formatNumber` is imported from `./timeTools`,
which is not among the sources.  The spec describes its outputs as uptime
percentages rendered as decimal numbers (data model: "uptime percentage
(0–100, one decimal)"; example: uptime string "95.5-100.0-97.0" yields the
values 95.5, 100.0 and 97.0).  We therefore read the argument as a decimal
numeral string and return its rational value; unparsable input is read
as 0. -/
def formatNumber (s : String) : ℚ :=
  match splitOnChar '.' s.data with
  | [ip] => mkRat (((digitsVal ip).getD 0 : ℕ) : ℤ) 1
  | [ip, fp] =>
    mkRat ((((digitsVal ip).getD 0 * 10 ^ fp.length + (digitsVal fp).getD 0 : ℕ)) : ℤ)
      (10 ^ fp.length)
  | _ => 0

/-- One UptimeRobot log entry: a state-change event with a type code
(1 = down), a unix start time and a duration in seconds. -/
structure Log where
  type : ℤ
  datetime : ℤ
  duration : ℤ
  deriving DecidableEq

/-- One raw monitor record as consumed by `dataProcessing`. -/
structure Monitor where
  id : ℤ
  friendly_name : String
  url : String
  status : ℤ
  custom_uptime_ranges : String
  logs : List Log
  deriving DecidableEq

/-- Abstract stand-in for a dayjs date object.  The source consumes the
requested dates only through `date.format("YYYYMMDD")` (the bucket map key)
and by storing the object itself in the bucket, so the model carries the
formatted calendar-day key. -/
structure SDate where
  key : String
  deriving DecidableEq

/-- Downtime statistic `{ times, duration }`. -/
structure DownStat where
  times : ℤ
  duration : ℤ
  deriving DecidableEq

/-- One entry of the `daily` array built by `dataProcessing`. -/
structure DailyBucket where
  date : SDate
  uptime : ℚ
  down : DownStat
  deriving DecidableEq

/-- The per-monitor record returned by `dataProcessing`. -/
structure SiteResult where
  id : ℤ
  name : String
  url : String
  average : ℚ
  daily : List DailyBucket
  total : DownStat
  status : String
  deriving DecidableEq

/-- JavaScript `Array.prototype.indexOf` on a string array: index of the
first occurrence, `-1` when absent. -/
def jsIndexOf (l : List String) (x : String) : ℤ :=
  match l with
  | [] => -1
  | a :: rest =>
    if a = x then 0
    else
      let r := jsIndexOf rest x
      if r = -1 then -1 else r + 1

/-- Priority the sort comparator in `dataProcessing` computes for one
monitor: `siteSortArr.indexOf(v.friendly_name.trim()) + 1`, with the
comparator's `(i == -1 ? 0 : i)` guard kept verbatim (the guard never
fires, since `indexOf` is at least `-1`). -/
def sitePriority (arr : List String) (v : Monitor) : ℤ :=
  let i := jsIndexOf arr (trimString v.friendly_name) + 1
  if i = -1 then 0 else i

/-- The sort comparator of `dataProcessing`:
`(i2 == -1 ? 0 : i2) - (i1 == -1 ? 0 : i1)`. -/
def siteComparator (arr : List String) (v1 v2 : Monitor) : ℤ :=
  sitePriority arr v2 - sitePriority arr v1

/-- Stable insertion used to model `Array.prototype.sort` with a
comparator: an element is inserted before the first element it need not
follow (comparator value `≤ 0`).  For a consistent comparator this
reproduces the ordering contract of the stable sort required by ES2019. -/
def jsInsert {α : Type} (cmp : α → α → ℤ) (a : α) : List α → List α
  | [] => [a]
  | b :: l => if cmp a b ≤ 0 then a :: b :: l else b :: jsInsert cmp a l

/-- Stable insertion sort modelling `Array.prototype.sort`. -/
def jsSort {α : Type} (cmp : α → α → ℤ) : List α → List α
  | [] => []
  | a :: l => jsInsert cmp a (jsSort cmp l)

/-- The configured priority list as `dataProcessing` prepares it:
`VITE_SITE_SORT.split(",").map(v => v.trim()).reverse()`. -/
def siteSortArr (s : String) : List String :=
  ((splitString ',' s).map trimString).reverse

/-- The sorting step of `dataProcessing` for a present `VITE_SITE_SORT`
value `s`. -/
def sortMonitors (s : String) (data : List Monitor) : List Monitor :=
  jsSort (siteComparator (siteSortArr s)) data

/-- The `map` object built in `dataProcessing`
(`map[date.format("YYYYMMDD")] = index` for each date in order): a lookup
yields the index of the last date bearing the formatted key, later
assignments overwriting earlier ones. -/
def dateIndex : List SDate → String → Option ℕ
  | [], _ => none
  | d :: rest, k =>
    match dateIndex rest k with
    | some j => some (j + 1)
    | none => if d.key = k then some 0 else none

/-- The `daily` array as initialised by the `dates.forEach` loop: bucket
`index` holds the date object, the formatted `ranges[index]` (after the
aggregate range was popped), and a zeroed downtime statistic.  The counter
argument carries the index of the head of the remaining date list; an
out-of-range `ranges[index]` is read as the empty string. -/
def buildDaily (ranges : List String) : List SDate → ℕ → List DailyBucket
  | [], _ => []
  | d :: rest, i =>
    { date := d, uptime := formatNumber (ranges.getD i ""),
      down := { times := 0, duration := 0 } } :: buildDaily ranges rest (i + 1)

/-- The in-place update a down log applies to its bucket:
`down.duration += log.duration; down.times += 1`. -/
def bumpDown (dur : ℤ) (b : DailyBucket) : DailyBucket :=
  { b with down := { times := b.down.times + 1, duration := b.down.duration + dur } }

/-- Replace the element at an index by the image under `f`; out of range
the list is unchanged (the out-of-range case is never reached by the
callers below, which guard the index first). -/
def modifyIdx {α : Type} : List α → ℕ → (α → α) → List α
  | [], _, _ => []
  | a :: l, 0, f => f a :: l
  | a :: l, n + 1, f => a :: modifyIdx l n f

/-- One step of the `logs.reduce(calculateTotal, {times: 0, duration: 0})`
fold.  For a log of type 1 the source increments the running total and then
updates `daily[map[date]]`; when the log's formatted day is not a key of
`map`, `map[date]` is `undefined` and `daily[undefined].down` throws a
`TypeError`, modelled as `.error ()` (aborting the whole call, so the
already-updated total is never observed).  Logs of other types leave the
state untouched. -/
def calculateTotal (dayKey : ℤ → String) (map : String → Option ℕ)
    (acc : DownStat × List DailyBucket) (log : Log) :
    Except Unit (DownStat × List DailyBucket) :=
  if log.type = 1 then
    let total : DownStat :=
      { times := acc.1.times + 1, duration := acc.1.duration + log.duration }
    match map (dayKey log.datetime) with
    | none => .error ()
    | some i =>
      if i < acc.2.length then .ok (total, modifyIdx acc.2 i (bumpDown log.duration))
      else .error ()
  else .ok acc

/-- `Array.prototype.reduce` over the log list with `calculateTotal`; a
thrown `TypeError` aborts the fold. -/
def foldLogs (dayKey : ℤ → String) (map : String → Option ℕ) :
    DownStat × List DailyBucket → List Log → Except Unit (DownStat × List DailyBucket)
  | acc, [] => .ok acc
  | acc, log :: rest =>
    match calculateTotal dayKey map acc log with
    | .error e => .error e
    | .ok acc2 => foldLogs dayKey map acc2 rest

/-- The per-monitor body of `dataProcessing`'s `data.map`: split the uptime
string on "-", pop the aggregate average, build the daily buckets from the
date list, fold the logs, and classify the status code (the source sets
"unknown" and then overrides with "ok" on 2 and "down" on 9). -/
def processMonitor (dayKey : ℤ → String) (dates : List SDate) (monitor : Monitor) :
    Except Unit SiteResult :=
  let ranges := splitString '-' monitor.custom_uptime_ranges
  let average := formatNumber (ranges.getLastD "")
  let daily0 := buildDaily ranges.dropLast dates 0
  match foldLogs dayKey (dateIndex dates) ({ times := 0, duration := 0 }, daily0) monitor.logs with
  | .error e => .error e
  | .ok (total, daily) =>
    .ok { id := monitor.id, name := monitor.friendly_name, url := monitor.url,
          average := average, daily := daily, total := total,
          status :=
            if monitor.status = 9 then "down"
            else if monitor.status = 2 then "ok" else "unknown" }

/-- `data.map(monitor => ...)` with a thrown exception aborting the map. -/
def mapMonitors (dayKey : ℤ → String) (dates : List SDate) :
    List Monitor → Except Unit (List SiteResult)
  | [] => .ok []
  | m :: rest =>
    match processMonitor dayKey dates m with
    | .error e => .error e
    | .ok r =>
      match mapMonitors dayKey dates rest with
      | .error e => .error e
      | .ok rs => .ok (r :: rs)

/-- Model of `dataProcessing`.  `dayKey` stands for
`t => dayjs.unix(t).format("YYYYMMDD")`; `siteSort` is the
`VITE_SITE_SORT` environment variable — when it is absent the `split` call
throws, the surrounding `try/catch` logs and swallows the error, and the
original order is kept (the `none` case). -/
def dataProcessing (dayKey : ℤ → String) (siteSort : Option String)
    (data : List Monitor) (dates : List SDate) : Except Unit (List SiteResult) :=
  let sorted :=
    match siteSort with
    | none => data
    | some s => sortMonitors s data
  mapMonitors dayKey dates sorted

/-- The cache slot: raw monitor list plus capture timestamp
(milliseconds). -/
structure CacheEntry where
  data : List Monitor
  timestamp : ℤ
  deriving DecidableEq

/-- The part of the fetch response `getSiteData` consumes: the `monitors`
field, absent on a malformed body (`response.monitors` is then
`undefined`). -/
structure FetchResponse where
  monitors : Option (List Monitor)
  deriving DecidableEq

/-- `cacheDuration` of `getSiteData`, in seconds. -/
def cacheDuration : ℤ := 60

/-- `dataProcessing(data, dates)` behind the optional chaining `data?.map`:
an `undefined` monitor list yields `undefined`. -/
def dataProcessingOpt (dayKey : ℤ → String) (siteSort : Option String)
    (data : Option (List Monitor)) (dates : List SDate) :
    Except Unit (Option (List SiteResult)) :=
  match data with
  | none => .ok none
  | some l => (dataProcessing dayKey siteSort l dates).map some

/-- The fetch branch of `getSiteData`: on a thrown fetch the error is
logged and re-thrown with the cache untouched; on success the cache slot is
overwritten with the fresh monitor list and the current time — but only
when the response actually carries `monitors` — and the data is processed
and returned. -/
def getSiteDataFetch (dayKey : ℤ → String) (siteSort : Option String) (dates : List SDate)
    (cache : Option CacheEntry) (fetchTime : ℤ)
    (fetchResult : Except Unit FetchResponse) :
    Except Unit (Option (List SiteResult)) × Option CacheEntry × Bool :=
  match fetchResult with
  | .error e => (.error e, cache, true)
  | .ok resp =>
    let newCache :=
      match resp.monitors with
      | some mons => some { data := mons, timestamp := fetchTime }
      | none => cache
    (dataProcessingOpt dayKey siteSort resp.monitors dates, newCache, true)

/-- Model of `getSiteData`.  The returned triple is the thrown-or-returned
processed data, the cache slot after the call, and whether the network
fetch ran.  `now` is the clock at the cache check, `fetchTime` the clock at
the store; `fetchResult` stands for what `getMonitorsData` would do if
called (on a cache hit it is ignored — no network call happens).  The UI
side effects (`status.changeSiteState`, `changeSite`, the randomized
500–1200 ms delay of the cache path) are outside the model. -/
def getSiteData (dayKey : ℤ → String) (siteSort : Option String) (dates : List SDate)
    (cache : Option CacheEntry) (now fetchTime : ℤ)
    (fetchResult : Except Unit FetchResponse) :
    Except Unit (Option (List SiteResult)) × Option CacheEntry × Bool :=
  match cache with
  | some entry =>
    if now - entry.timestamp < cacheDuration * 1000 then
      ((dataProcessing dayKey siteSort entry.data dates).map some, some entry, false)
    else
      getSiteDataFetch dayKey siteSort dates cache fetchTime fetchResult
  | none => getSiteDataFetch dayKey siteSort dates cache fetchTime fetchResult

/-- The summary counts `changeSite` pushes to the status store. -/
structure SiteOverview where
  count : ℕ
  okCount : ℕ
  downCount : ℕ
  unknownCount : ℕ
  deriving DecidableEq

/-- Model of `changeSite`'s pure computation: the rollup state
("normal" when every site is ok, "error" when some but not all are,
"allError" otherwise) and the overview counts.  The favicon swap is a DOM
effect outside the model, as is the `catch` that downgrades a thrown DOM
error to "error". -/
def changeSite (data : List SiteResult) : String × SiteOverview :=
  let isAllStatusOk := data.all (fun item => item.status == "ok")
  let isAnyStatusOk := data.any (fun item => item.status == "ok")
  let okCount := (data.filter (fun item => item.status == "ok")).length
  let downCount := (data.filter (fun item => item.status == "down")).length
  let unknownCount := (data.filter (fun item => item.status == "unknown")).length
  let state :=
    if isAllStatusOk then "normal"
    else if isAnyStatusOk then "error" else "allError"
  (state,
   { count := data.length, okCount := okCount, downCount := downCount,
     unknownCount := unknownCount })

/-- Split a parameter piece at its first "=", as `URLSearchParams` does:
"a=b=c" becomes key "a", value "b=c"; a piece without "=" has value "". -/
def splitFirstEq : List Char → List Char × List Char
  | [] => ([], [])
  | c :: rest =>
    if c == '=' then ([], rest)
    else
      let p := splitFirstEq rest
      (c :: p.1, p.2)

/-- Model of `new URLSearchParams(body)` on a form-encoded body: split on
"&", drop empty pieces, split each piece at its first "=".
Percent-decoding is not modelled; keys and values are compared and
re-serialised as raw text, which is faithful for the handler's uses (it
only ever rewrites the `api_key` entry). -/
def parseParams (body : String) : List (String × String) :=
  ((splitOnChar '&' body.data).filter (fun piece => !piece.isEmpty)).map
    (fun piece => (⟨(splitFirstEq piece).1⟩, ⟨(splitFirstEq piece).2⟩))

/-- Model of `URLSearchParams.set(k, v)`: overwrite the value at the first
occurrence of the key in place, delete every later occurrence, and append
the pair when the key is absent. -/
def setParam : List (String × String) → String → String → List (String × String)
  | [], k, v => [(k, v)]
  | (k1, v1) :: rest, k, v =>
    if k1 = k then (k, v) :: rest.filter (fun p => p.1 ≠ k)
    else (k1, v1) :: setParam rest k v

/-- Model of `URLSearchParams.get(k)`: value at the first occurrence. -/
def getParam : List (String × String) → String → Option String
  | [], _ => none
  | (k1, v1) :: rest, k => if k1 = k then some v1 else getParam rest k

/-- Join character lists with a separator character. -/
def intercalateChar (sep : Char) : List (List Char) → List Char
  | [] => []
  | [x] => x
  | x :: y :: xs => x ++ sep :: intercalateChar sep (y :: xs)

/-- Model of `URLSearchParams.toString()` (minus percent-encoding):
"k=v" pieces joined by "&". -/
def paramsToString (ps : List (String × String)) : String :=
  ⟨intercalateChar '&' (ps.map (fun p => p.1.data ++ '=' :: p.2.data))⟩

/-- The body the proxy forwards upstream:
`params.set("api_key", apiKey); params.toString()`. -/
def proxyForwardBody (apiKey : String) (clientBody : String) : String :=
  paramsToString (setParam (parseParams clientBody) "api_key" apiKey)

/-- Model of the proxy endpoint handler: non-POST methods get 405, a
missing server-side key gets 500, otherwise the rewritten body is forwarded
upstream (the upstream relay of status/body/content-type is outside the
model — the value of interest is what is forwarded). -/
def proxyHandler (envKey : Option String) (method : String) (clientBody : String) :
    Except (ℕ × String) String :=
  if method ≠ "POST" then .error (405, "Method Not Allowed")
  else
    match envKey with
    | none => .error (500, "Missing UPTIMEROBOT_API_KEY")
    | some apiKey => .ok (proxyForwardBody apiKey clientBody)

/-- Two parameter lists agree except possibly in the values stored under
key `k`: same length, equal keys position by position, and equal values
wherever the key differs from `k`. -/
def agreeExceptKey (k : String) : List (String × String) → List (String × String) → Bool
  | [], [] => true
  | (k1, v1) :: t1, (k2, v2) :: t2 =>
    k1 == k2 && (k1 == k || v1 == v2) && agreeExceptKey k t1 t2
  | _, _ => false

/-! Concrete inputs and outputs used by the witness theorems below. -/

def exDayKeyC1 : ℤ → String := fun _ => "20240101"

def exDatesC1 : List SDate := [{ key := "20240101" }, { key := "20231231" }]

def exMonC1 : Monitor :=
  { id := 1, friendly_name := "site one", url := "https-one", status := 2,
    custom_uptime_ranges := "95.5-100.0-97.0", logs := [] }

def exResultC1 : SiteResult :=
  { id := 1, name := "site one", url := "https-one", average := mkRat 97 1,
    daily :=
      [{ date := { key := "20240101" }, uptime := mkRat 955 10,
         down := { times := 0, duration := 0 } },
       { date := { key := "20231231" }, uptime := mkRat 100 1,
         down := { times := 0, duration := 0 } }],
    total := { times := 0, duration := 0 }, status := "ok" }

def exDayKeyC2 : ℤ → String := fun _ => "20240101"

def exDatesC2 : List SDate := [{ key := "20240101" }]

def exDailyC2 : List DailyBucket :=
  [{ date := { key := "20240101" }, uptime := 0, down := { times := 0, duration := 0 } }]

def exLogC2 : Log := { type := 1, datetime := 5, duration := 30 }

def exDayKeyC9 : ℤ → String := fun _ => "20240101"

def exDayKeyC9X : ℤ → String := fun _ => "X"

def exDateC9 : SDate := { key := "20240101" }

def exGoodMonC9 : Monitor :=
  { id := 2, friendly_name := "good", url := "u2", status := 2,
    custom_uptime_ranges := "100-100",
    logs := [{ type := 1, datetime := 3, duration := 5 }] }

def exBadMonC9 : Monitor :=
  { id := 3, friendly_name := "bad", url := "u3", status := 2,
    custom_uptime_ranges := "100-100",
    logs := [{ type := 1, datetime := 3, duration := 5 }] }

def exDayKeyC10 : ℤ → String := fun _ => "A"

def exDatesC10 : List SDate := [{ key := "A" }, { key := "B" }]

def exMonC10 : Monitor :=
  { id := 4, friendly_name := "ten", url := "u4", status := 2,
    custom_uptime_ranges := "90-80-85",
    logs := [{ type := 1, datetime := 10, duration := 60 }] }

def exResultC10 : SiteResult :=
  { id := 4, name := "ten", url := "u4", average := mkRat 85 1,
    daily :=
      [{ date := { key := "A" }, uptime := mkRat 90 1,
         down := { times := 1, duration := 60 } },
       { date := { key := "B" }, uptime := mkRat 80 1,
         down := { times := 0, duration := 0 } }],
    total := { times := 1, duration := 60 }, status := "ok" }

def exDayKeyW : ℤ → String := fun _ => "W"

def exEntryW : CacheEntry := { data := [], timestamp := 0 }

def exMonA : Monitor :=
  { id := 5, friendly_name := "A", url := "ua", status := 2,
    custom_uptime_ranges := "100", logs := [] }

def exMonB : Monitor :=
  { id := 6, friendly_name := "B", url := "ub", status := 9,
    custom_uptime_ranges := "100", logs := [] }

def exMonX : Monitor :=
  { id := 7, friendly_name := "X", url := "ux", status := 2,
    custom_uptime_ranges := "100", logs := [] }

/-! Helper lemmas about the list operations of the model. -/

theorem getD_eq_get {α : Type} (x : α) :
    ∀ (l : List α) (i : ℕ) (h : i < l.length), l.getD i x = l.get ⟨i, h⟩
  | [], _, h => absurd h (by simp)
  | _ :: _, 0, _ => rfl
  | _ :: l, i + 1, h => getD_eq_get x l i (Nat.lt_of_succ_lt_succ h)

theorem getD_dropLast {α : Type} (x : α) :
    ∀ (l : List α) (i : ℕ), i < l.dropLast.length → l.dropLast.getD i x = l.getD i x
  | [], _, h => absurd h (by simp)
  | [_], _, h => absurd h (by simp)
  | _ :: _ :: _, 0, _ => rfl
  | _ :: b :: t, i + 1, h => getD_dropLast x (b :: t) i (by simpa using h)

theorem getLastD_mem {α : Type} (x : α) :
    ∀ (l : List α), l ≠ [] → l.getLastD x ∈ l
  | [], h => absurd rfl h
  | [a], _ => by simp
  | a :: b :: t, _ => by
    have := getLastD_mem x (b :: t) (by simp)
    simpa [List.getLastD] using Or.inr this

theorem modifyIdx_length {α : Type} (f : α → α) :
    ∀ (l : List α) (i : ℕ), (modifyIdx l i f).length = l.length
  | [], _ => rfl
  | _ :: _, 0 => rfl
  | a :: l, n + 1 => by simp [modifyIdx, modifyIdx_length f l n]

theorem get_modifyIdx_self {α : Type} (f : α → α) :
    ∀ (l : List α) (i : ℕ) (h : i < l.length) (h2 : i < (modifyIdx l i f).length),
      (modifyIdx l i f).get ⟨i, h2⟩ = f (l.get ⟨i, h⟩)
  | [], _, h, _ => absurd h (by simp)
  | _ :: _, 0, _, _ => rfl
  | a :: l, n + 1, h, h2 =>
    get_modifyIdx_self f l n (Nat.lt_of_succ_lt_succ h) (Nat.lt_of_succ_lt_succ h2)

theorem get_modifyIdx_ne {α : Type} (f : α → α) :
    ∀ (l : List α) (i j : ℕ) (hj : j < l.length) (hj2 : j < (modifyIdx l i f).length),
      j ≠ i → (modifyIdx l i f).get ⟨j, hj2⟩ = l.get ⟨j, hj⟩
  | [], _, _, hj, _, _ => absurd hj (by simp)
  | a :: l, 0, 0, _, _, hne => absurd rfl hne
  | a :: l, 0, j + 1, _, _, _ => rfl
  | a :: l, i + 1, 0, _, _, _ => rfl
  | a :: l, i + 1, j + 1, hj, hj2, hne =>
    get_modifyIdx_ne f l i j (Nat.lt_of_succ_lt_succ hj) (Nat.lt_of_succ_lt_succ hj2)
      (by omega)

theorem map_modifyIdx {α β : Type} (f : α → α) (g : α → β) (hg : ∀ a, g (f a) = g a) :
    ∀ (l : List α) (i : ℕ), (modifyIdx l i f).map g = l.map g
  | [], _ => rfl
  | a :: l, 0 => by simp [modifyIdx, hg]
  | a :: l, n + 1 => by simp [modifyIdx, map_modifyIdx f g hg l n]

theorem sum_map_modifyIdx {α : Type} (f : α → α) (g : α → ℤ) (c : ℤ)
    (hg : ∀ a, g (f a) = g a + c) :
    ∀ (l : List α) (i : ℕ), i < l.length →
      ((modifyIdx l i f).map g).sum = (l.map g).sum + c
  | [], _, h => absurd h (by simp)
  | a :: l, 0, _ => by simp [modifyIdx, hg]; ring
  | a :: l, n + 1, h => by
    have ih := sum_map_modifyIdx f g c hg l n (Nat.lt_of_succ_lt_succ h)
    simp [modifyIdx, ih]; ring

/-! Lemmas about the date-key map and the initial daily array. -/

theorem dateIndex_some :
    ∀ (dates : List SDate) (k : String) (i : ℕ), dateIndex dates k = some i →
      ∃ h : i < dates.length, (dates.get ⟨i, h⟩).key = k
  | [], k, i, h => by simp [dateIndex] at h
  | d :: rest, k, i, h => by
    unfold dateIndex at h
    cases hrec : dateIndex rest k with
    | some j =>
      rw [hrec] at h
      injection h with h
      obtain ⟨hlt, hkey⟩ := dateIndex_some rest k j hrec
      subst h
      exact ⟨Nat.succ_lt_succ hlt, hkey⟩
    | none =>
      rw [hrec] at h
      by_cases hk : d.key = k
      · rw [if_pos hk] at h
        injection h with h
        subst h
        exact ⟨Nat.succ_pos _, hk⟩
      · rw [if_neg hk] at h
        exact absurd h (by simp)

theorem buildDaily_length (rs : List String) :
    ∀ (dates : List SDate) (i : ℕ), (buildDaily rs dates i).length = dates.length
  | [], _ => rfl
  | d :: rest, i => by simp [buildDaily, buildDaily_length rs rest (i + 1)]

theorem buildDaily_map_date (rs : List String) :
    ∀ (dates : List SDate) (i : ℕ),
      (buildDaily rs dates i).map (fun b => b.date) = dates
  | [], _ => rfl
  | d :: rest, i => by simp [buildDaily, buildDaily_map_date rs rest (i + 1)]

theorem buildDaily_get (rs : List String) :
    ∀ (dates : List SDate) (i j : ℕ) (h : j < (buildDaily rs dates i).length)
      (h2 : j < dates.length),
      (buildDaily rs dates i).get ⟨j, h⟩ =
        { date := dates.get ⟨j, h2⟩, uptime := formatNumber (rs.getD (i + j) ""),
          down := { times := 0, duration := 0 } }
  | [], _, j, _, h2 => absurd h2 (by simp)
  | d :: rest, i, 0, _, _ => by simp [buildDaily]
  | d :: rest, i, j + 1, h, h2 => by
    have hrec := buildDaily_get rs rest (i + 1) j
      (by simpa [buildDaily] using Nat.lt_of_succ_lt_succ h) (Nat.lt_of_succ_lt_succ h2)
    have harith : i + 1 + j = i + (j + 1) := by omega
    simpa [buildDaily, List.get, harith] using hrec

theorem buildDaily_sum_zero (rs : List String) (g : DownStat → ℤ)
    (hg : g { times := 0, duration := 0 } = 0) :
    ∀ (dates : List SDate) (i : ℕ),
      ((buildDaily rs dates i).map (fun b => g b.down)).sum = 0
  | [], _ => rfl
  | d :: rest, i => by
    simp [buildDaily, buildDaily_sum_zero rs g hg rest (i + 1), hg]

theorem buildDaily_map_uptime (rs : List String) (dates : List SDate)
    (hlen : rs.length = dates.length) :
    (buildDaily rs dates 0).map (fun b => b.uptime) = rs.map formatNumber := by
  apply List.ext_get
  · simp [buildDaily_length, hlen]
  · intro n h1 h2
    have hn : n < dates.length := by simpa [buildDaily_length] using h1
    have hn2 : n < rs.length := by simpa [hlen] using hn
    rw [List.get_map, List.get_map,
      buildDaily_get rs dates 0 n (by simpa [buildDaily_length] using hn) hn]
    show formatNumber (rs.getD (0 + n) "") = _
    rw [Nat.zero_add, getD_eq_get "" rs n hn2]

/-! Lemmas about the log fold. -/

theorem calculateTotal_not_down (dayKey : ℤ → String) (map : String → Option ℕ)
    (acc : DownStat × List DailyBucket) (log : Log) (h : log.type ≠ 1) :
    calculateTotal dayKey map acc log = .ok acc := by
  unfold calculateTotal
  rw [if_neg h]

theorem calculateTotal_down_eq (dayKey : ℤ → String) (map : String → Option ℕ)
    (acc : DownStat × List DailyBucket) (log : Log) (i : ℕ)
    (ht : log.type = 1) (hidx : map (dayKey log.datetime) = some i)
    (hlt : i < acc.2.length) :
    calculateTotal dayKey map acc log =
      .ok ({ times := acc.1.times + 1, duration := acc.1.duration + log.duration },
        modifyIdx acc.2 i (bumpDown log.duration)) := by
  unfold calculateTotal
  rw [if_pos ht]
  simp only [hidx]
  rw [if_pos hlt]

theorem calculateTotal_ok_cases (dayKey : ℤ → String) (map : String → Option ℕ)
    (acc acc2 : DownStat × List DailyBucket) (log : Log)
    (h : calculateTotal dayKey map acc log = .ok acc2) :
    (log.type ≠ 1 ∧ acc2 = acc) ∨
    (log.type = 1 ∧ ∃ i, map (dayKey log.datetime) = some i ∧ i < acc.2.length ∧
      acc2 = ({ times := acc.1.times + 1, duration := acc.1.duration + log.duration },
        modifyIdx acc.2 i (bumpDown log.duration))) := by
  by_cases ht : log.type = 1
  · right
    refine ⟨ht, ?_⟩
    unfold calculateTotal at h
    rw [if_pos ht] at h
    cases hidx : map (dayKey log.datetime) with
    | none =>
      simp only [hidx] at h
      exact absurd h (by simp)
    | some i =>
      simp only [hidx] at h
      by_cases hlt : i < acc.2.length
      · rw [if_pos hlt] at h
        injection h with h
        exact ⟨i, rfl, hlt, h.symm⟩
      · rw [if_neg hlt] at h
        exact absurd h (by simp)
  · left
    rw [calculateTotal_not_down dayKey map acc log ht] at h
    injection h with h
    exact ⟨ht, h.symm⟩

theorem calculateTotal_shape (dayKey : ℤ → String) (map : String → Option ℕ)
    (acc acc2 : DownStat × List DailyBucket) (log : Log)
    (h : calculateTotal dayKey map acc log = .ok acc2) :
    acc2.2.map (fun b => b.date) = acc.2.map (fun b => b.date) ∧
    acc2.2.map (fun b => b.uptime) = acc.2.map (fun b => b.uptime) ∧
    acc2.2.length = acc.2.length := by
  rcases calculateTotal_ok_cases dayKey map acc acc2 log h with ⟨-, rfl⟩ | ⟨-, i, -, -, rfl⟩
  · exact ⟨rfl, rfl, rfl⟩
  · refine ⟨?_, ?_, ?_⟩
    · exact map_modifyIdx (bumpDown log.duration) (fun b => b.date) (fun b => rfl) acc.2 i
    · exact map_modifyIdx (bumpDown log.duration) (fun b => b.uptime) (fun b => rfl) acc.2 i
    · exact modifyIdx_length (bumpDown log.duration) acc.2 i

theorem foldLogs_shape (dayKey : ℤ → String) (map : String → Option ℕ) :
    ∀ (logs : List Log) (t : DownStat) (d : List DailyBucket) (t2 : DownStat)
      (d2 : List DailyBucket),
      foldLogs dayKey map (t, d) logs = .ok (t2, d2) →
      d2.map (fun b => b.date) = d.map (fun b => b.date) ∧
      d2.map (fun b => b.uptime) = d.map (fun b => b.uptime) ∧
      d2.length = d.length
  | [], t, d, t2, d2, h => by
    simp only [foldLogs, Except.ok.injEq, Prod.mk.injEq] at h
    obtain ⟨h1, h2⟩ := h
    subst h1
    subst h2
    exact ⟨rfl, rfl, rfl⟩
  | log :: rest, t, d, t2, d2, h => by
    unfold foldLogs at h
    cases hstep : calculateTotal dayKey map (t, d) log with
    | error e => rw [hstep] at h; exact absurd h (by simp)
    | ok acc2 =>
      rw [hstep] at h
      obtain ⟨ta, da⟩ := acc2
      obtain ⟨hd1, hu1, hl1⟩ := calculateTotal_shape dayKey map (t, d) (ta, da) log hstep
      obtain ⟨hd2, hu2, hl2⟩ := foldLogs_shape dayKey map rest ta da t2 d2 h
      exact ⟨hd2.trans hd1, hu2.trans hu1, hl2.trans hl1⟩

theorem calculateTotal_sum (dayKey : ℤ → String) (map : String → Option ℕ)
    (acc acc2 : DownStat × List DailyBucket) (log : Log)
    (h : calculateTotal dayKey map acc log = .ok acc2) :
    acc2.1.times - (acc2.2.map (fun b => b.down.times)).sum =
      acc.1.times - (acc.2.map (fun b => b.down.times)).sum ∧
    acc2.1.duration - (acc2.2.map (fun b => b.down.duration)).sum =
      acc.1.duration - (acc.2.map (fun b => b.down.duration)).sum := by
  rcases calculateTotal_ok_cases dayKey map acc acc2 log h with ⟨-, rfl⟩ | ⟨-, i, -, hlt, rfl⟩
  · exact ⟨rfl, rfl⟩
  · constructor
    · rw [sum_map_modifyIdx (bumpDown log.duration) (fun b => b.down.times) 1
        (fun b => rfl) acc.2 i hlt]
      ring
    · rw [sum_map_modifyIdx (bumpDown log.duration) (fun b => b.down.duration) log.duration
        (fun b => rfl) acc.2 i hlt]
      ring

theorem foldLogs_sum (dayKey : ℤ → String) (map : String → Option ℕ) :
    ∀ (logs : List Log) (t : DownStat) (d : List DailyBucket) (t2 : DownStat)
      (d2 : List DailyBucket),
      foldLogs dayKey map (t, d) logs = .ok (t2, d2) →
      t2.times - (d2.map (fun b => b.down.times)).sum =
        t.times - (d.map (fun b => b.down.times)).sum ∧
      t2.duration - (d2.map (fun b => b.down.duration)).sum =
        t.duration - (d.map (fun b => b.down.duration)).sum
  | [], t, d, t2, d2, h => by
    simp only [foldLogs, Except.ok.injEq, Prod.mk.injEq] at h
    obtain ⟨h1, h2⟩ := h
    subst h1
    subst h2
    exact ⟨rfl, rfl⟩
  | log :: rest, t, d, t2, d2, h => by
    unfold foldLogs at h
    cases hstep : calculateTotal dayKey map (t, d) log with
    | error e => rw [hstep] at h; exact absurd h (by simp)
    | ok acc2 =>
      rw [hstep] at h
      obtain ⟨ta, da⟩ := acc2
      obtain ⟨h1, h2⟩ := calculateTotal_sum dayKey map (t, d) (ta, da) log hstep
      obtain ⟨h3, h4⟩ := foldLogs_sum dayKey map rest ta da t2 d2 h
      exact ⟨h3.trans h1, h4.trans h2⟩

theorem foldLogs_ok (dayKey : ℤ → String) (dates : List SDate) :
    ∀ (logs : List Log) (t : DownStat) (d : List DailyBucket),
      d.length = dates.length →
      (∀ log ∈ logs, log.type = 1 →
        (dateIndex dates (dayKey log.datetime)).isSome = true) →
      ∃ out, foldLogs dayKey (dateIndex dates) (t, d) logs = .ok out
  | [], t, d, _, _ => ⟨(t, d), rfl⟩
  | log :: rest, t, d, hlen, hall => by
    by_cases ht : log.type = 1
    · have hsome := hall log (by simp) ht
      cases hidx : dateIndex dates (dayKey log.datetime) with
      | none => rw [hidx] at hsome; simp at hsome
      | some i =>
        obtain ⟨hlt, -⟩ := dateIndex_some dates _ i hidx
        have hstep := calculateTotal_down_eq dayKey (dateIndex dates) (t, d) log i ht hidx
          (by rw [hlen]; exact hlt)
        obtain ⟨out, hout⟩ := foldLogs_ok dayKey dates rest
          { times := t.times + 1, duration := t.duration + log.duration }
          (modifyIdx d i (bumpDown log.duration))
          (by rw [modifyIdx_length, hlen])
          (fun l hl hty => hall l (by simp [hl]) hty)
        refine ⟨out, ?_⟩
        unfold foldLogs
        rw [hstep]
        exact hout
    · obtain ⟨out, hout⟩ := foldLogs_ok dayKey dates rest t d hlen
        (fun l hl hty => hall l (by simp [hl]) hty)
      refine ⟨out, ?_⟩
      unfold foldLogs
      rw [calculateTotal_not_down dayKey (dateIndex dates) (t, d) log ht]
      exact hout

/-! Inversion of a successful `processMonitor` run. -/

theorem processMonitor_ok_parts (dayKey : ℤ → String) (dates : List SDate)
    (m : Monitor) (r : SiteResult)
    (hok : processMonitor dayKey dates m = .ok r) :
    ∃ total daily,
      foldLogs dayKey (dateIndex dates)
        ({ times := 0, duration := 0 },
          buildDaily (splitString '-' m.custom_uptime_ranges).dropLast dates 0) m.logs =
        .ok (total, daily) ∧
      r = { id := m.id, name := m.friendly_name, url := m.url,
            average := formatNumber ((splitString '-' m.custom_uptime_ranges).getLastD ""),
            daily := daily, total := total,
            status :=
              if m.status = 9 then "down"
              else if m.status = 2 then "ok" else "unknown" } := by
  simp only [processMonitor] at hok
  cases hfold : foldLogs dayKey (dateIndex dates)
      ({ times := 0, duration := 0 },
        buildDaily (splitString '-' m.custom_uptime_ranges).dropLast dates 0) m.logs with
  | error e =>
    rw [hfold] at hok
    exact absurd hok (by simp)
  | ok acc =>
    obtain ⟨total, daily⟩ := acc
    rw [hfold] at hok
    simp only [Except.ok.injEq] at hok
    exact ⟨total, daily, rfl, hok.symm⟩

/-- C1: for every monitor whose `custom_uptime_ranges` string splits into
N + 1 percentage values and every list of N requested dates, the
per-monitor transform of `dataProcessing` sets `average` to the formatted
last value of the split string and produces a `daily` array with exactly N
entries, the entry at index i carrying the date at index i and the
formatted i-th percentage value. -/
theorem claim1_uptime_positions (dayKey : ℤ → String) (dates : List SDate)
    (m : Monitor) (r : SiteResult)
    (hok : processMonitor dayKey dates m = .ok r)
    (hN : (splitString '-' m.custom_uptime_ranges).length = dates.length + 1) :
    r.average = formatNumber ((splitString '-' m.custom_uptime_ranges).getLastD "") ∧
    r.daily.length = dates.length ∧
    r.daily.map (fun b => b.date) = dates ∧
    r.daily.map (fun b => b.uptime) =
      ((splitString '-' m.custom_uptime_ranges).dropLast).map formatNumber := by
  obtain ⟨total, daily, hfold, rfl⟩ := processMonitor_ok_parts dayKey dates m r hok
  obtain ⟨hdate, hupt, hlen⟩ := foldLogs_shape dayKey (dateIndex dates) m.logs _ _ total daily hfold
  have hdrop : (splitString '-' m.custom_uptime_ranges).dropLast.length = dates.length := by
    rw [List.length_dropLast, hN]
    omega
  refine ⟨rfl, ?_, ?_, ?_⟩
  · dsimp only
    rw [hlen, buildDaily_length]
  · dsimp only
    rw [hdate, buildDaily_map_date]
  · dsimp only
    rw [hupt, buildDaily_map_uptime _ dates hdrop]

/-- C1 witness: the spec's example — days = 2, uptime string
"95.5-100.0-97.0" — instantiates the theorem; the concrete run yields
average 97 and daily uptimes 95.5 and 100.0 in date order. -/
theorem claim1_witness :
    (exResultC1.average =
        formatNumber ((splitString '-' exMonC1.custom_uptime_ranges).getLastD "") ∧
      exResultC1.daily.length = exDatesC1.length ∧
      exResultC1.daily.map (fun b => b.date) = exDatesC1 ∧
      exResultC1.daily.map (fun b => b.uptime) =
        ((splitString '-' exMonC1.custom_uptime_ranges).dropLast).map formatNumber) ∧
    exResultC1.average = mkRat 97 1 ∧
    exResultC1.daily.map (fun b => b.uptime) = [mkRat 955 10, mkRat 100 1] :=
  ⟨claim1_uptime_positions exDayKeyC1 exDatesC1 exMonC1 exResultC1 (by rfl) (by rfl),
    by decide, by decide⟩

/-- C2: a down-type log entry (type = 1) increments the running total and
exactly one daily bucket — the bucket whose date formats to the log's
calendar-day key — leaving every other bucket untouched; a log entry of any
other type changes nothing. -/
theorem claim2_down_log_bucket (dayKey : ℤ → String) (dates : List SDate)
    (t : DownStat) (daily : List DailyBucket) (log : Log)
    (hlen : daily.length = dates.length)
    (hdate : ∀ (i : ℕ) (h1 : i < daily.length) (h2 : i < dates.length),
      (daily.get ⟨i, h1⟩).date = dates.get ⟨i, h2⟩) :
    (log.type ≠ 1 →
      calculateTotal dayKey (dateIndex dates) (t, daily) log = .ok (t, daily)) ∧
    (∀ (t2 : DownStat) (daily2 : List DailyBucket), log.type = 1 →
      calculateTotal dayKey (dateIndex dates) (t, daily) log = .ok (t2, daily2) →
      t2.times = t.times + 1 ∧ t2.duration = t.duration + log.duration ∧
      ∃ (i : ℕ) (hi : i < daily.length) (hi2 : i < daily2.length),
        (daily.get ⟨i, hi⟩).date.key = dayKey log.datetime ∧
        daily2 = modifyIdx daily i (bumpDown log.duration) ∧
        (daily2.get ⟨i, hi2⟩).down.times = (daily.get ⟨i, hi⟩).down.times + 1 ∧
        (daily2.get ⟨i, hi2⟩).down.duration =
          (daily.get ⟨i, hi⟩).down.duration + log.duration ∧
        (daily2.get ⟨i, hi2⟩).date = (daily.get ⟨i, hi⟩).date ∧
        (daily2.get ⟨i, hi2⟩).uptime = (daily.get ⟨i, hi⟩).uptime ∧
        ∀ (j : ℕ) (hj : j < daily.length) (hj2 : j < daily2.length), j ≠ i →
          daily2.get ⟨j, hj2⟩ = daily.get ⟨j, hj⟩) := by
  constructor
  · intro ht
    exact calculateTotal_not_down dayKey (dateIndex dates) (t, daily) log ht
  · intro t2 daily2 ht hok
    rcases calculateTotal_ok_cases dayKey (dateIndex dates) (t, daily) (t2, daily2) log hok with
      ⟨hne, -⟩ | ⟨-, i, hidx, hlt, heq⟩
    · exact absurd ht hne
    · simp only [Prod.mk.injEq] at heq
      obtain ⟨ht2, hd2⟩ := heq
      subst ht2
      subst hd2
      obtain ⟨hdlt, hkey⟩ := dateIndex_some dates _ i hidx
      have hlt' : i < daily.length := hlt
      have hi2 : i < (modifyIdx daily i (bumpDown log.duration)).length := by
        rw [modifyIdx_length]
        exact hlt'
      have hself := get_modifyIdx_self (bumpDown log.duration) daily i hlt' hi2
      refine ⟨rfl, rfl, i, hlt', hi2, ?_, rfl, ?_, ?_, ?_, ?_, ?_⟩
      · rw [hdate i hlt' hdlt]
        exact hkey
      · rw [hself]
        rfl
      · rw [hself]
        rfl
      · rw [hself]
        rfl
      · rw [hself]
        rfl
      · intro j hj hj2 hne
        exact get_modifyIdx_ne (bumpDown log.duration) daily i j hj hj2 hne

/-- C2 witness: a one-date instance — the down log of 30 seconds lands in
the single bucket, whose date key matches the log's formatted day. -/
theorem claim2_witness :
    (exLogC2.type ≠ 1 →
      calculateTotal exDayKeyC2 (dateIndex exDatesC2) ({ times := 0, duration := 0 }, exDailyC2)
        exLogC2 = .ok ({ times := 0, duration := 0 }, exDailyC2)) ∧
    (∀ (t2 : DownStat) (daily2 : List DailyBucket), exLogC2.type = 1 →
      calculateTotal exDayKeyC2 (dateIndex exDatesC2) ({ times := 0, duration := 0 }, exDailyC2)
        exLogC2 = .ok (t2, daily2) →
      t2.times = ({ times := 0, duration := 0 } : DownStat).times + 1 ∧
      t2.duration = ({ times := 0, duration := 0 } : DownStat).duration + exLogC2.duration ∧
      ∃ (i : ℕ) (hi : i < exDailyC2.length) (hi2 : i < daily2.length),
        (exDailyC2.get ⟨i, hi⟩).date.key = exDayKeyC2 exLogC2.datetime ∧
        daily2 = modifyIdx exDailyC2 i (bumpDown exLogC2.duration) ∧
        (daily2.get ⟨i, hi2⟩).down.times = (exDailyC2.get ⟨i, hi⟩).down.times + 1 ∧
        (daily2.get ⟨i, hi2⟩).down.duration =
          (exDailyC2.get ⟨i, hi⟩).down.duration + exLogC2.duration ∧
        (daily2.get ⟨i, hi2⟩).date = (exDailyC2.get ⟨i, hi⟩).date ∧
        (daily2.get ⟨i, hi2⟩).uptime = (exDailyC2.get ⟨i, hi⟩).uptime ∧
        ∀ (j : ℕ) (hj : j < exDailyC2.length) (hj2 : j < daily2.length), j ≠ i →
          daily2.get ⟨j, hj2⟩ = exDailyC2.get ⟨j, hj⟩) :=
  claim2_down_log_bucket exDayKeyC2 exDatesC2 { times := 0, duration := 0 } exDailyC2 exLogC2
    (by rfl)
    (by
      intro i h1 h2
      have hi0 : i = 0 := by
        simp [exDailyC2] at h1
        omega
      subst hi0
      rfl)

/-- C5: the per-monitor transform of `dataProcessing` maps status code 2 to
"ok", 9 to "down" and every other code to "unknown". -/
theorem claim5_status_mapping (dayKey : ℤ → String) (dates : List SDate) (m : Monitor) :
    (processMonitor dayKey dates m).map (fun r => r.status) =
      (processMonitor dayKey dates m).map
        (fun _ => if m.status = 2 then "ok" else if m.status = 9 then "down" else "unknown") := by
  cases hp : processMonitor dayKey dates m with
  | error e => rfl
  | ok r =>
    obtain ⟨total, daily, -, rfl⟩ := processMonitor_ok_parts dayKey dates m r hp
    simp only [Except.map]
    by_cases h2 : m.status = 2
    · have h9 : ¬ m.status = 9 := by omega
      simp [h2, h9]
    · by_cases h9 : m.status = 9
      · simp [h2, h9]
      · simp [h2, h9]

/-- C9: the per-monitor transform (and hence `dataProcessing`) is total
whenever every down-type log formats to one of the requested day keys, and
a monitor carrying a type-1 log whose day lies outside the requested dates
makes the daily-bucket update dereference a missing map entry, so
`dataProcessing` throws instead of returning. -/
theorem claim9_out_of_range_throw :
    (∀ (dayKey : ℤ → String) (dates : List SDate) (m : Monitor),
      (∀ log ∈ m.logs, log.type = 1 →
        (dateIndex dates (dayKey log.datetime)).isSome = true) →
      ∃ r, processMonitor dayKey dates m = .ok r) ∧
    dataProcessing exDayKeyC9X none [exBadMonC9] [exDateC9] = .error () := by
  constructor
  · intro dayKey dates m hall
    obtain ⟨⟨total, daily⟩, hout⟩ := foldLogs_ok dayKey dates m.logs
      { times := 0, duration := 0 }
      (buildDaily (splitString '-' m.custom_uptime_ranges).dropLast dates 0)
      (buildDaily_length _ dates 0) hall
    have hres : processMonitor dayKey dates m =
        .ok { id := m.id, name := m.friendly_name, url := m.url,
              average := formatNumber ((splitString '-' m.custom_uptime_ranges).getLastD ""),
              daily := daily, total := total,
              status :=
                if m.status = 9 then "down"
                else if m.status = 2 then "ok" else "unknown" } := by
      simp only [processMonitor]
      rw [hout]
    exact ⟨_, hres⟩
  · rfl

/-- C9 witness: the totality direction applied to a monitor whose only
down log lands on a requested date. -/
theorem claim9_witness :
    ∃ r, processMonitor exDayKeyC9 [exDateC9] exGoodMonC9 = .ok r :=
  claim9_out_of_range_throw.1 exDayKeyC9 [exDateC9] exGoodMonC9 (by decide)

/-- C10: on every monitor on which the per-monitor transform returns, the
result's total equals the componentwise sum of its daily buckets. -/
theorem claim10_total_sum (dayKey : ℤ → String) (dates : List SDate)
    (m : Monitor) (r : SiteResult)
    (hok : processMonitor dayKey dates m = .ok r) :
    r.total.times = (r.daily.map (fun b => b.down.times)).sum ∧
    r.total.duration = (r.daily.map (fun b => b.down.duration)).sum := by
  obtain ⟨total, daily, hfold, rfl⟩ := processMonitor_ok_parts dayKey dates m r hok
  obtain ⟨h1, h2⟩ := foldLogs_sum dayKey (dateIndex dates) m.logs _ _ total daily hfold
  have z1 : (((buildDaily (splitString '-' m.custom_uptime_ranges).dropLast dates 0).map
      (fun b => b.down.times)).sum : ℤ) = 0 :=
    buildDaily_sum_zero _ (fun s => s.times) rfl dates 0
  have z2 : (((buildDaily (splitString '-' m.custom_uptime_ranges).dropLast dates 0).map
      (fun b => b.down.duration)).sum : ℤ) = 0 :=
    buildDaily_sum_zero _ (fun s => s.duration) rfl dates 0
  rw [z1] at h1
  rw [z2] at h2
  dsimp only at h1 h2 ⊢
  constructor
  · linarith [h1]
  · linarith [h2]

/-- C10 witness: a concrete two-day monitor with one down log of 60
seconds — total (1, 60) equals the bucket sums. -/
theorem claim10_witness :
    exResultC10.total.times = (exResultC10.daily.map (fun b => b.down.times)).sum ∧
    exResultC10.total.duration = (exResultC10.daily.map (fun b => b.down.duration)).sum :=
  claim10_total_sum exDayKeyC10 exDatesC10 exMonC10 exResultC10 (by rfl)

/-! Lemmas about the priority sort. -/

theorem jsInsert_mem {α : Type} (cmp : α → α → ℤ) (a x : α) :
    ∀ (l : List α), x ∈ jsInsert cmp a l ↔ x = a ∨ x ∈ l
  | [] => by simp [jsInsert]
  | b :: l => by
    by_cases h : cmp a b ≤ 0
    · simp only [jsInsert, if_pos h, List.mem_cons]
    · simp only [jsInsert, if_neg h, List.mem_cons, jsInsert_mem cmp a x l]
      tauto

theorem jsInsert_pairwise {α : Type} (p : α → ℤ) (a : α) (l : List α)
    (h : l.Pairwise (fun x y => p y ≤ p x)) :
    (jsInsert (fun x y => p y - p x) a l).Pairwise (fun x y => p y ≤ p x) := by
  induction l with
  | nil => simp [jsInsert]
  | cons b l ih =>
    rw [List.pairwise_cons] at h
    obtain ⟨hb, hl⟩ := h
    by_cases hc : p b - p a ≤ 0
    · simp only [jsInsert, if_pos hc]
      rw [List.pairwise_cons]
      refine ⟨?_, List.pairwise_cons.mpr ⟨hb, hl⟩⟩
      intro x hx
      rcases List.mem_cons.mp hx with rfl | hx
      · omega
      · have := hb x hx
        omega
    · simp only [jsInsert, if_neg hc]
      rw [List.pairwise_cons]
      refine ⟨?_, ih hl⟩
      intro x hx
      rcases (jsInsert_mem (fun x y => p y - p x) a x l).mp hx with rfl | hx
      · omega
      · exact hb x hx

theorem jsSort_pairwise {α : Type} (p : α → ℤ) :
    ∀ (l : List α), (jsSort (fun x y => p y - p x) l).Pairwise (fun x y => p y ≤ p x)
  | [] => by simp [jsSort]
  | a :: l => jsInsert_pairwise p a _ (jsSort_pairwise p l)

theorem sortMonitors_pairwise (s : String) (data : List Monitor) :
    (sortMonitors s data).Pairwise
      (fun x y => sitePriority (siteSortArr s) y ≤ sitePriority (siteSortArr s) x) :=
  jsSort_pairwise (sitePriority (siteSortArr s)) data

theorem jsIndexOf_nonneg_of_mem (x : String) :
    ∀ (l : List String), x ∈ l → 0 ≤ jsIndexOf l x
  | [], h => absurd h (by simp)
  | a :: l, h => by
    simp only [jsIndexOf]
    by_cases ha : a = x
    · rw [if_pos ha]
    · rw [if_neg ha]
      have hx : x ∈ l := by
        rcases List.mem_cons.mp h with rfl | hl
        · exact absurd rfl ha
        · exact hl
      have hrec := jsIndexOf_nonneg_of_mem x l hx
      split <;> omega

theorem jsIndexOf_of_not_mem (x : String) :
    ∀ (l : List String), x ∉ l → jsIndexOf l x = -1
  | [], _ => rfl
  | a :: l, h => by
    have ha : ¬ a = x := by
      intro e
      exact h (by rw [e]; exact List.mem_cons_self x l)
    have hl : x ∉ l := fun hx => h (List.mem_cons_of_mem a hx)
    simp only [jsIndexOf, if_neg ha, jsIndexOf_of_not_mem x l hl]
    rfl

theorem sitePriority_eq_zero (arr : List String) (v : Monitor)
    (h : trimString v.friendly_name ∉ arr) : sitePriority arr v = 0 := by
  simp only [sitePriority, jsIndexOf_of_not_mem _ arr h]
  rfl

theorem sitePriority_pos (arr : List String) (v : Monitor)
    (h : trimString v.friendly_name ∈ arr) : 1 ≤ sitePriority arr v := by
  have hn := jsIndexOf_nonneg_of_mem _ arr h
  simp only [sitePriority]
  rw [if_neg (by omega)]
  omega

theorem splitOnChar_ne_nil (sep : Char) : ∀ (cs : List Char), splitOnChar sep cs ≠ []
  | [] => by simp [splitOnChar]
  | c :: cs => by
    unfold splitOnChar
    cases h : splitOnChar sep cs with
    | nil => simp
    | cons g gs => by_cases hc : c == sep <;> simp [hc]

theorem siteSortArr_ne_nil (s : String) : siteSortArr s ≠ [] := by
  intro h
  apply splitOnChar_ne_nil ',' s.data
  simpa [siteSortArr, splitString] using h

/-- C6 counterexample: the claim — the comparator assigns priority 0 to
unmatched sites AND some input list gets an unmatched site placed ahead of
a site matching the lowest-priority configured entry — is false: the sort
orders by descending priority, so a matched site (priority at least 1) can
never appear after an unmatched one (priority 0). -/
theorem claim6_counterexample :
    ¬ ((∀ (arr : List String) (v : Monitor),
          trimString v.friendly_name ∉ arr → sitePriority arr v = 0) ∧
       ∃ (s : String) (data : List Monitor) (i j : ℕ)
         (hi : i < (sortMonitors s data).length) (hj : j < (sortMonitors s data).length),
         i < j ∧
         trimString ((sortMonitors s data).get ⟨i, hi⟩).friendly_name ∉
           (splitString ',' s).map trimString ∧
         trimString ((sortMonitors s data).get ⟨j, hj⟩).friendly_name =
           ((splitString ',' s).map trimString).getLastD "") := by
  rintro ⟨-, s, data, i, j, hi, hj, hij, hunm, hlow⟩
  have hpair := (List.pairwise_iff_get.mp (sortMonitors_pairwise s data)) ⟨i, hi⟩ ⟨j, hj⟩ hij
  have hlastmem : ((splitString ',' s).map trimString).getLastD "" ∈
      (splitString ',' s).map trimString := by
    apply getLastD_mem
    simp only [ne_eq, List.map_eq_nil_iff]
    exact fun h => splitOnChar_ne_nil ',' s.data (by simpa [splitString] using h)
  have hjmem : trimString ((sortMonitors s data).get ⟨j, hj⟩).friendly_name ∈ siteSortArr s := by
    rw [hlow]
    simp only [siteSortArr, List.mem_reverse]
    exact hlastmem
  have himem : trimString ((sortMonitors s data).get ⟨i, hi⟩).friendly_name ∉ siteSortArr s := by
    simp only [siteSortArr, List.mem_reverse]
    exact hunm
  have h1 := sitePriority_pos (siteSortArr s) _ hjmem
  have h0 := sitePriority_eq_zero (siteSortArr s) _ himem
  omega

/-- C6 amended: the comparator assigns priority 0 to a site whose trimmed
name is not in the configured priority list, and in the sorted output every
site placed before a matched site is itself matched — an unmatched site is
never placed ahead of a matched one (it lands behind even the
lowest-priority matched entry). -/
theorem claim6_priority_amended :
    (∀ (arr : List String) (v : Monitor),
      trimString v.friendly_name ∉ arr → sitePriority arr v = 0) ∧
    (∀ (s : String) (data : List Monitor) (i j : ℕ)
      (hi : i < (sortMonitors s data).length) (hj : j < (sortMonitors s data).length),
      i < j →
      trimString ((sortMonitors s data).get ⟨j, hj⟩).friendly_name ∈ siteSortArr s →
      trimString ((sortMonitors s data).get ⟨i, hi⟩).friendly_name ∈ siteSortArr s) := by
  constructor
  · exact sitePriority_eq_zero
  · intro s data i j hi hj hij hjmem
    by_contra himem
    have hpair := (List.pairwise_iff_get.mp (sortMonitors_pairwise s data)) ⟨i, hi⟩ ⟨j, hj⟩ hij
    have h1 := sitePriority_pos (siteSortArr s) _ hjmem
    have h0 := sitePriority_eq_zero (siteSortArr s) _ himem
    omega

theorem exSortLen0 : 0 < (sortMonitors "A,B" [exMonB, exMonA]).length := by decide

theorem exSortLen1 : 1 < (sortMonitors "A,B" [exMonB, exMonA]).length := by decide

/-- C6 witness: with priority list "A,B" and input [B, A], the sorted
output places the matched site at index 0 ahead of the matched site at
index 1, and the amended theorem applies. -/
theorem claim6_witness :
    trimString ((sortMonitors "A,B" [exMonB, exMonA]).get ⟨0, exSortLen0⟩).friendly_name ∈
      siteSortArr "A,B" :=
  claim6_priority_amended.2 "A,B" [exMonB, exMonA] 0 1 exSortLen0 exSortLen1 (by omega)
    (by decide)

/-! Presenter rollup. -/

/-- C4 counterexample: on the empty site list the claimed equivalences
fail — the code computes "normal" (the vacuous all-ok branch wins), while
the claim's "critical iff no site is ok" would demand "allError", since on
the empty list no site is ok. -/
theorem claim4_counterexample :
    ¬ (((changeSite ([] : List SiteResult)).1 = "normal" ↔
          ∀ r ∈ ([] : List SiteResult), r.status = "ok") ∧
       ((changeSite ([] : List SiteResult)).1 = "allError" ↔
          ∀ r ∈ ([] : List SiteResult), r.status ≠ "ok") ∧
       ((changeSite ([] : List SiteResult)).1 = "error" ↔
          (∃ r ∈ ([] : List SiteResult), r.status = "ok") ∧
            ¬ ∀ r ∈ ([] : List SiteResult), r.status = "ok")) := by
  intro h
  have hae : (changeSite ([] : List SiteResult)).1 = "allError" := h.2.1.mpr (by simp)
  exact absurd hae (by decide)

/-- C4 amended: for every site list, the rollup is "normal" iff every site
is ok (vacuously on the empty list), "allError" iff the list is nonempty
and no site is ok, and "error" iff some but not all sites are ok. -/
theorem claim4_rollup_amended (data : List SiteResult) :
    ((changeSite data).1 = "normal" ↔ ∀ r ∈ data, r.status = "ok") ∧
    ((changeSite data).1 = "allError" ↔ data ≠ [] ∧ ∀ r ∈ data, r.status ≠ "ok") ∧
    ((changeSite data).1 = "error" ↔
      (∃ r ∈ data, r.status = "ok") ∧ ¬ ∀ r ∈ data, r.status = "ok") := by
  simp only [changeSite]
  by_cases hall : (data.all (fun item => item.status == "ok")) = true
  · rw [if_pos hall]
    simp only [List.all_eq_true, beq_iff_eq] at hall
    refine ⟨by simpa using hall, ?_, ?_⟩
    · constructor
      · intro h
        exact absurd h (by decide)
      · rintro ⟨hne, hnone⟩
        obtain ⟨r, hr⟩ := List.exists_mem_of_ne_nil data hne
        exact absurd (hall r hr) (hnone r hr)
    · constructor
      · intro h
        exact absurd h (by decide)
      · rintro ⟨-, hnall⟩
        exact absurd hall hnall
  · rw [if_neg hall]
    simp only [List.all_eq_true, beq_iff_eq] at hall
    by_cases hany : (data.any (fun item => item.status == "ok")) = true
    · rw [if_pos hany]
      simp only [List.any_eq_true, beq_iff_eq] at hany
      refine ⟨?_, ?_, ?_⟩
      · constructor
        · intro h
          exact absurd h (by decide)
        · intro h
          exact absurd h hall
      · constructor
        · intro h
          exact absurd h (by decide)
        · rintro ⟨-, hnone⟩
          obtain ⟨r, hr, hok⟩ := hany
          exact absurd hok (hnone r hr)
      · constructor
        · intro _
          exact ⟨hany, hall⟩
        · intro _
          rfl
    · rw [if_neg hany]
      simp only [List.any_eq_true, beq_iff_eq] at hany
      have hne : data ≠ [] := by
        intro he
        subst he
        exact hall (by simp)
      refine ⟨?_, ?_, ?_⟩
      · constructor
        · intro h
          exact absurd h (by decide)
        · intro h
          exact absurd h hall
      · constructor
        · intro _
          exact ⟨hne, fun r hr hok => hany ⟨r, hr, hok⟩⟩
        · intro _
          rfl
      · constructor
        · intro h
          exact absurd h (by decide)
        · rintro ⟨⟨r, hr, hok⟩, -⟩
          exact absurd ⟨r, hr, hok⟩ hany

/-! Cache gate. -/

/-- C3: with a cache entry younger than 60 s the cached raw monitors are
reprocessed and returned and no fetch runs; with a stale entry (age at
least 60 s) or no entry, the fetch runs. -/
theorem claim3_cache_gate (dayKey : ℤ → String) (siteSort : Option String)
    (dates : List SDate) (cache : Option CacheEntry) (now fetchTime : ℤ)
    (fetchResult : Except Unit FetchResponse) :
    (∀ e, cache = some e → now - e.timestamp < cacheDuration * 1000 →
      getSiteData dayKey siteSort dates cache now fetchTime fetchResult =
        ((dataProcessing dayKey siteSort e.data dates).map some, some e, false)) ∧
    (∀ e, cache = some e → cacheDuration * 1000 ≤ now - e.timestamp →
      (getSiteData dayKey siteSort dates cache now fetchTime fetchResult).2.2 = true) ∧
    (cache = none →
      (getSiteData dayKey siteSort dates cache now fetchTime fetchResult).2.2 = true) := by
  refine ⟨?_, ?_, ?_⟩
  · rintro e rfl h
    simp only [getSiteData]
    rw [if_pos h]
  · rintro e rfl h
    simp only [getSiteData]
    rw [if_neg (by omega)]
    cases fetchResult with
    | error e2 => rfl
    | ok resp =>
      obtain ⟨mons⟩ := resp
      cases mons <;> rfl
  · rintro rfl
    simp only [getSiteData]
    cases fetchResult with
    | error e2 => rfl
    | ok resp =>
      obtain ⟨mons⟩ := resp
      cases mons <;> rfl

/-- C3 witness: a fresh entry (age 1 s) is served from cache with no
fetch. -/
theorem claim3_witness :
    getSiteData exDayKeyW none [] (some exEntryW) 1000 2000 (.ok { monitors := none }) =
      ((dataProcessing exDayKeyW none exEntryW.data []).map some, some exEntryW, false) :=
  (claim3_cache_gate exDayKeyW none [] (some exEntryW) 1000 2000 (.ok { monitors := none })).1
    exEntryW rfl (by decide)

/-- C8: past the cache gate, a thrown fetch leaves the cache unchanged and
re-throws, and a successful fetch carrying a monitor list overwrites any
prior entry with the fresh list and the store-time stamp. -/
theorem claim8_cache_store (dayKey : ℤ → String) (siteSort : Option String)
    (dates : List SDate) (cache : Option CacheEntry) (now fetchTime : ℤ)
    (hstale : ∀ e, cache = some e → cacheDuration * 1000 ≤ now - e.timestamp) :
    (getSiteData dayKey siteSort dates cache now fetchTime (.error ()) =
      (.error (), cache, true)) ∧
    (∀ (resp : FetchResponse) (mons : List Monitor), resp.monitors = some mons →
      getSiteData dayKey siteSort dates cache now fetchTime (.ok resp) =
        ((dataProcessing dayKey siteSort mons dates).map some,
          some { data := mons, timestamp := fetchTime }, true)) := by
  constructor
  · cases cache with
    | none => rfl
    | some e =>
      simp only [getSiteData]
      rw [if_neg (by have := hstale e rfl; omega)]
      rfl
  · intro resp mons hmons
    obtain ⟨m⟩ := resp
    simp only at hmons
    subst hmons
    cases cache with
    | none => simp [getSiteData, getSiteDataFetch, dataProcessingOpt]
    | some e =>
      simp only [getSiteData]
      rw [if_neg (by have := hstale e rfl; omega)]
      simp [getSiteDataFetch, dataProcessingOpt]

/-- C8 witness: with a stale entry (age 70 s), a thrown fetch keeps the old
entry and a successful fetch replaces it with the fresh list and new
timestamp. -/
theorem claim8_witness :
    (getSiteData exDayKeyW none [] (some exEntryW) 70000 70001 (.error ()) =
      (.error (), some exEntryW, true)) ∧
    getSiteData exDayKeyW none [] (some exEntryW) 70000 70001
        (.ok { monitors := some [exMonA] }) =
      ((dataProcessing exDayKeyW none [exMonA] []).map some,
        some { data := [exMonA], timestamp := 70001 }, true) :=
  ⟨(claim8_cache_store exDayKeyW none [] (some exEntryW) 70000 70001
      (by intro e he; injection he with h; subst h; decide)).1,
   (claim8_cache_store exDayKeyW none [] (some exEntryW) 70000 70001
      (by intro e he; injection he with h; subst h; decide)).2
      { monitors := some [exMonA] } [exMonA] rfl⟩

/-! Proxy endpoint. -/

theorem filter_agreeExceptKey (k : String) :
    ∀ (t1 t2 : List (String × String)), agreeExceptKey k t1 t2 = true →
      t1.filter (fun p => p.1 ≠ k) = t2.filter (fun p => p.1 ≠ k)
  | [], [], _ => rfl
  | [], p :: t2, h => by simp [agreeExceptKey] at h
  | p :: t1, [], h => by simp [agreeExceptKey] at h
  | ⟨k1, v1⟩ :: t1, ⟨k2, v2⟩ :: t2, h => by
    simp only [agreeExceptKey, Bool.and_eq_true, beq_iff_eq, Bool.or_eq_true] at h
    obtain ⟨⟨hk, hv⟩, ht⟩ := h
    subst hk
    have ih := filter_agreeExceptKey k t1 t2 ht
    by_cases hkk : k1 = k
    · have hdrop : ∀ (v : String) (t : List (String × String)),
          List.filter (fun p => decide (p.1 ≠ k)) ((k1, v) :: t) =
            List.filter (fun p => decide (p.1 ≠ k)) t := by
        intro v t
        simp [List.filter, hkk]
      rw [hdrop v1 t1, hdrop v2 t2]
      exact ih
    · rcases hv with hv | hv
      · exact absurd hv hkk
      · subst hv
        have hkeep : ∀ (t : List (String × String)),
            List.filter (fun p => decide (p.1 ≠ k)) ((k1, v1) :: t) =
              (k1, v1) :: List.filter (fun p => decide (p.1 ≠ k)) t := by
          intro t
          simp [List.filter, hkk]
        rw [hkeep t1, hkeep t2, ih]

theorem setParam_agreeExceptKey (k v : String) :
    ∀ (t1 t2 : List (String × String)), agreeExceptKey k t1 t2 = true →
      setParam t1 k v = setParam t2 k v
  | [], [], _ => rfl
  | [], p :: t2, h => by simp [agreeExceptKey] at h
  | p :: t1, [], h => by simp [agreeExceptKey] at h
  | ⟨k1, v1⟩ :: t1, ⟨k2, v2⟩ :: t2, h => by
    simp only [agreeExceptKey, Bool.and_eq_true, beq_iff_eq, Bool.or_eq_true] at h
    obtain ⟨⟨hk, hv⟩, ht⟩ := h
    subst hk
    by_cases hkk : k1 = k
    · simp only [setParam, if_pos hkk]
      rw [filter_agreeExceptKey k t1 t2 ht]
    · rcases hv with hv | hv
      · exact absurd hv hkk
      · subst hv
        simp only [setParam, if_neg hkk]
        rw [setParam_agreeExceptKey k v t1 t2 ht]

theorem getParam_setParam (k v : String) :
    ∀ (ps : List (String × String)), getParam (setParam ps k v) k = some v
  | [] => by simp [setParam, getParam]
  | ⟨k1, v1⟩ :: ps => by
    by_cases hkk : k1 = k
    · simp [setParam, getParam, hkk]
    · simp only [setParam, if_neg hkk, getParam, if_neg hkk]
      exact getParam_setParam k v ps

/-- C7: a POST through the proxy forwards the parsed body with its
`api_key` entry set to the server-side environment key, and two client
bodies whose parameter lists differ only in the values under `api_key`
produce identical forwarded bodies — the client-supplied key has no
influence. -/
theorem claim7_proxy_key_override (envKey b b1 b2 : String) :
    (proxyHandler (some envKey) "POST" b = .ok (proxyForwardBody envKey b) ∧
      getParam (setParam (parseParams b) "api_key" envKey) "api_key" = some envKey) ∧
    (agreeExceptKey "api_key" (parseParams b1) (parseParams b2) = true →
      proxyForwardBody envKey b1 = proxyForwardBody envKey b2) := by
  refine ⟨⟨?_, ?_⟩, ?_⟩
  · rfl
  · exact getParam_setParam "api_key" envKey (parseParams b)
  · intro h
    unfold proxyForwardBody
    rw [setParam_agreeExceptKey "api_key" envKey _ _ h]

/-- C7 witness: two concrete bodies differing only in the client-supplied
`api_key` value forward identically. -/
theorem claim7_witness :
    proxyForwardBody "SECRET" "api_key=aaa&format=json" =
      proxyForwardBody "SECRET" "api_key=bbb&format=json" :=
  (claim7_proxy_key_override "SECRET" "x" "api_key=aaa&format=json"
    "api_key=bbb&format=json").2 (by decide)

end SiteStatus
